import Mathlib

/-!
Verification development for the EXCELHTML tabular-data pipeline.

The definitions below are a shallow embedding of the repository's core code:

* `src/lib/excel-parser.ts` — type inference (`inferColumnType`), schema
  generation (`generateSchemaFromData`), value normalization (`normalizeValue`)
  and data processing (`processData`);
* `src/lib/excel-worker.ts` (store part) — the query engine
  (`getFilteredData`) and the table-state actions (`setPage`, `setSearch`,
  `addFilter`, `setPageSize`);
* `src/components/Pagination.tsx` — `handlePageChange`.

Modelling conventions:

* JS numbers are embedded as rationals (`ℚ`).  JS numbers are binary
  floating point, i.e. dyadic rationals; every value appearing in a theorem
  below has an exact decimal form, where the embedding is exact.
* JS strings are Lean `String`s; character-level operations work on
  `List Char`.  `toLowerCase` is modelled for ASCII plus `Ã` (the only
  non-ASCII letter occurring in the code's token sets); `localeCompare` is
  modelled as code-point lexicographic comparison (it is host/locale
  defined in JS).
* `null` and `undefined` are collapsed into one `CellValue.null`
  constructor (normalization never produces `undefined`; the code's
  `value != null` loose checks treat both alike).
* The regular expressions of the source are implemented as executable
  matchers, each one a direct transcription of the regex it models.
-/

/-- JS whitespace (`\s`) restricted to the characters relevant here:
ASCII whitespace plus the no-break space. -/
def isJsWs (c : Char) : Bool :=
  c == ' ' || c == '\t' || c == '\n' || c == '\r' || c == '\x0b' ||
  c == '\x0c' || c == ' '

/-- `String.prototype.toLowerCase` on one character: ASCII plus `Ã`
(the only non-ASCII uppercase letter in the code's token sets). -/
def jsToLowerChar (c : Char) : Char :=
  if c == 'Ã' then 'ã' else c.toLower

/-- `String.prototype.toUpperCase` on one character (ASCII plus `ã`). -/
def jsToUpperChar (c : Char) : Char :=
  if c == 'ã' then 'Ã' else c.toUpper

/-- `String.prototype.toLowerCase`. -/
def lowerJsStr (s : String) : String :=
  String.mk (s.toList.map jsToLowerChar)

/-- `String.prototype.trim` on a character list. -/
def trimChars (l : List Char) : List Char :=
  ((l.dropWhile isJsWs).reverse.dropWhile isJsWs).reverse

/-- Canonical scalar cell value (TS `CellValue`): string, number, boolean,
date (a date instant, embedded as an integer timestamp) or null.
`null` also stands for JS `undefined`. -/
inductive CellValue where
  | str (s : String)
  | num (q : ℚ)
  | bool (b : Bool)
  | date (d : Int)
  | null
deriving DecidableEq

/-- Number of times the prime `p` divides `n` (fuel-based, executable). -/
def facCountAux (p : Nat) : Nat → Nat → Nat
  | 0, _ => 0
  | fuel + 1, n => if 2 ≤ p ∧ 0 < n ∧ n % p == 0 then 1 + facCountAux p fuel (n / p) else 0

def facCount (p n : Nat) : Nat := facCountAux p n n

/-- `String(x)` for a JS number.  ECMAScript prints the shortest decimal
string that round-trips; for a number with a terminating decimal expansion
this is exactly that expansion, which is what is produced here (integers
print without a decimal point).  For a rational without a terminating
expansion (not representable as a JS number) the digits are truncated;
no theorem below depends on that case. -/
def jsNumToString (q : ℚ) : String :=
  let sign := if q < 0 then "-" else ""
  let n := q.num.natAbs
  if q.den = 1 then sign ++ toString n
  else
    let k := max (facCount 2 q.den) (facCount 5 q.den)
    let m := n * 10 ^ k / q.den
    let fracStr := toString (m % 10 ^ k)
    let pad := String.mk (List.replicate (k - fracStr.length) '0')
    sign ++ toString (m / 10 ^ k) ++ "." ++ pad ++ fracStr

/-- JS `String(value)`.  `String(null)` is `"null"`; the string form of a
`Date` object is host-defined and stood in for by a tag (no claim below
depends on it). -/
def jsToString : CellValue → String
  | .str s => s
  | .num q => jsNumToString q
  | .bool true => "true"
  | .bool false => "false"
  | .date d => "[Date " ++ toString d ++ "]"
  | .null => "null"

-- ============================================
-- Regex matchers (excel-parser.ts, lines 135-149)
-- ============================================

/-- Characters of the class `[\d.,]`. -/
def isNumDotComma (c : Char) : Bool := c.isDigit || c == '.' || c == ','

/-- Characters of the class `[R$€£¥]` of `CURRENCY_REGEX`.  Note this is a
character class: it matches one single character. -/
def isCurrencySym (c : Char) : Bool :=
  c == 'R' || c == '$' || c == '€' || c == '£' || c == '¥'

/-- `EMAIL_REGEX = /^[^\s@]+@[^\s@]+\.[^\s@]+$/`: one `@` splitting the
string into a nonempty local part and a domain that contains a `.` with
nonempty text on both sides; no whitespace and no second `@` anywhere. -/
def emailMatch (l : List Char) : Bool :=
  match l.splitOn '@' with
  | [a, d] =>
    !a.isEmpty && a.all (fun c => !isJsWs c) && d.all (fun c => !isJsWs c) &&
    (List.range d.length).any (fun i =>
      d.getD i ' ' == '.' && decide (0 < i ∧ i + 1 < d.length))
  | _ => false

/-- `URL_REGEX = /^https?:\/\/[^\s]+$/`. -/
def urlMatch (l : List Char) : Bool :=
  let p1 := "http://".toList
  let p2 := "https://".toList
  ((p1.isPrefixOf l && decide (p1.length < l.length)) ||
   (p2.isPrefixOf l && decide (p2.length < l.length))) &&
  l.all (fun c => !isJsWs c)

/-- `/\.(jpg|jpeg|png|gif|webp|svg)$/i` (image split of a URL). -/
def imageExtMatch (l : List Char) : Bool :=
  let low := l.map jsToLowerChar
  [".jpg", ".jpeg", ".png", ".gif", ".webp", ".svg"].any
    (fun e => e.toList.isSuffixOf low)

/-- `PHONE_REGEX = /^[\d\s()+-]{8,}$/`. -/
def phoneMatch (l : List Char) : Bool :=
  decide (8 ≤ l.length) &&
  l.all (fun c => c.isDigit || isJsWs c || c == '(' || c == ')' || c == '+' || c == '-')

/-- `/[a-zA-Z]/` (the extra no-letters test on phone candidates). -/
def hasAlphaChar (l : List Char) : Bool :=
  l.any (fun c => ('a' ≤ c && c ≤ 'z') || ('A' ≤ c && c ≤ 'Z'))

/-- One alternative `SYM \s? [\d.,]+` of `CURRENCY_REGEX`, reading the
symbol first (`rest` is the text after the symbol). -/
def currencyTail : List Char → Bool
  | r :: rs => if isJsWs r then !rs.isEmpty && rs.all isNumDotComma
               else (r :: rs).all isNumDotComma
  | [] => false

/-- `CURRENCY_REGEX = /^[R$€£¥]\s?[\d.,]+$|^[\d.,]+\s?[R$€£¥]$/`.  The
second alternative is the first one mirrored, so it is checked on the
reversed string. -/
def currencyMatch (l : List Char) : Bool :=
  (match l with
   | c :: rest => isCurrencySym c && currencyTail rest
   | [] => false) ||
  (match l.reverse with
   | c :: rest => isCurrencySym c && currencyTail rest
   | [] => false)

/-- `PERCENTAGE_REGEX = /^[\d.,]+\s?%$/` (checked on the reversed string). -/
def percentMatch (l : List Char) : Bool :=
  match l.reverse with
  | c :: rest => c == '%' && currencyTail rest
  | [] => false

/-- `DATE_REGEX = /^\d{1,4}[-\/]\d{1,2}[-\/]\d{1,4}$/`.  The digit runs in
the string are maximal, so greedy matching is equivalent to checking the
three maximal runs and the two separators. -/
def dateStrMatch (l : List Char) : Bool :=
  let d1 := l.takeWhile Char.isDigit
  match l.drop d1.length with
  | s1 :: rest1 =>
    decide (1 ≤ d1.length ∧ d1.length ≤ 4) && (s1 == '-' || s1 == '/') &&
    (let d2 := rest1.takeWhile Char.isDigit
     match rest1.drop d2.length with
     | s2 :: rest2 =>
       decide (1 ≤ d2.length ∧ d2.length ≤ 2) && (s2 == '-' || s2 == '/') &&
       (let d3 := rest2.takeWhile Char.isDigit
        decide (1 ≤ d3.length ∧ d3.length ≤ 4) && (rest2.drop d3.length).isEmpty)
     | [] => false)
  | [] => false

-- ============================================
-- Type inference (excel-parser.ts, inferColumnType)
-- ============================================

/-- Closed tag set of column types (TS `ColumnType`). -/
inductive ColumnType where
  | string | number | currency | percentage | date | datetime
  | boolean | email | url | phone | image | badge | progress
deriving DecidableEq

/-- Token set of the boolean check in `inferColumnType`. -/
def boolTokens : List String :=
  ["true", "false", "sim", "não", "yes", "no", "0", "1"]

def isBoolCell : CellValue → Bool
  | .bool _ => true
  | _ => false

def isDateCell : CellValue → Bool
  | .date _ => true
  | _ => false

def isNumCell : CellValue → Bool
  | .num _ => true
  | _ => false

/-- The counting bucket a sampled value falls into: a direct transcription
of the first-match-wins `if`/`continue` chain in `inferColumnType`.
The final `number` guard of the source is
`!isNaN(parseFloat(strValue.replace(/[,\s]/g, ''))) && typeof value === 'number'`;
for a native (finite) JS number `v`, `parseFloat(String(v))` always parses
(ECMAScript stringification round-trips), so the guard is equivalent to the
`typeof` test alone, which is how it is embedded. -/
def bucketOf (v : CellValue) : ColumnType :=
  let s := trimChars (jsToString v).toList
  if isBoolCell v || boolTokens.contains (String.mk (s.map jsToLowerChar)) then .boolean
  else if isDateCell v then .date
  else if emailMatch s then .email
  else if urlMatch s then (if imageExtMatch s then .image else .url)
  else if phoneMatch s && !hasAlphaChar s then .phone
  else if currencyMatch s then .currency
  else if percentMatch s then .percentage
  else if dateStrMatch s then .date
  else if isNumCell v then .number
  else .string

/-- The parsed numeric value of a cell lies in `[0, 100]` (the `progress`
side-count condition of the number branch; for a native number the parsed
value is the number itself). -/
def inProgressRange : CellValue → Bool
  | .num q => decide ((0 : ℚ) ≤ q ∧ q ≤ 100)
  | _ => false

/-- Whether the tally of `inferColumnType` counts value `v` toward type
`t`: the exclusive first-match bucket, plus the extra `progress` count for
native numbers in `[0, 100]`. -/
def tallyHits (t : ColumnType) (v : CellValue) : Bool :=
  bucketOf v == t || (t == .progress && bucketOf v == .number && inProgressRange v)

/-- `typeCounts[t]` after tallying the whole sample. -/
def typeCounts (sample : List CellValue) (t : ColumnType) : Nat :=
  sample.countP (tallyHits t)

/-- The sample filter `v != null && v !== ''` of `inferColumnType`. -/
def isSampled : CellValue → Bool
  | .null => false
  | .str s => !(s == "")
  | _ => true

/-- The fixed priority order walked after tallying. -/
def priorityOrder : List ColumnType :=
  [.email, .url, .image, .phone, .currency, .percentage,
   .date, .datetime, .boolean, .progress, .number, .badge, .string]

/-- `typeCounts[type] / total >= 0.7` in exact (division-free) integer
form: for `total > 0`, `c / total ≥ 7/10 ↔ 7 * total ≤ 10 * c`. -/
def reachesThreshold (sample : List CellValue) (t : ColumnType) : Bool :=
  decide (7 * sample.length ≤ 10 * typeCounts sample t)

/-- Distinct count used by the badge fallback:
`new Set(nonNullValues.map(v => String(v).toLowerCase())).size`. -/
def distinctCount (sample : List CellValue) : Nat :=
  ((sample.map (fun v => lowerJsStr (jsToString v))).dedup).length

/-- `inferColumnType` (excel-parser.ts lines 152-269). -/
def inferColumnType (values : List CellValue) : ColumnType :=
  let nonNull := values.filter isSampled
  if nonNull.isEmpty then .string
  else
    match priorityOrder.find? (reachesThreshold nonNull) with
    | some t => t
    | none =>
      let uniq := distinctCount nonNull
      if uniq ≤ 10 ∧ 0 < uniq then .badge else .string

-- ============================================
-- Schema generation (excel-parser.ts, generateSchemaFromData)
-- ============================================

/-- Column alignment (`'left' | 'center' | 'right'`). -/
inductive Align where
  | left | center | right
deriving DecidableEq

/-- TS `ColumnFormat` (the fields the generator can populate). -/
structure ColumnFormat where
  type : ColumnType
  locale : Option String
  currency : Option String
  decimals : Option Nat
  dateFormat : Option String
  badgeColors : Option (List (String × String × String))
deriving DecidableEq

/-- `ColumnFormat` with only the type set (all optional fields absent). -/
def plainFormat (t : ColumnType) : ColumnFormat :=
  ⟨t, none, none, none, none, none⟩

/-- TS `ColumnDefinition` (the fields the generator populates). -/
structure ColumnDefinition where
  key : String
  label : String
  format : ColumnFormat
  sortable : Bool
  filterable : Bool
  searchable : Bool
  align : Option Align
deriving DecidableEq

/-- Sort direction. -/
inductive SortDir where
  | asc | desc
deriving DecidableEq

/-- TS `SortState`. -/
structure SortState where
  column : String
  direction : SortDir
deriving DecidableEq

/-- The `features` object that `generateSchemaFromData` attaches. -/
structure SchemaFeatures where
  exportFlag : Bool
  printFlag : Bool
  chartsFlag : Bool
  paginationFlag : Bool
  searchFlag : Bool
  filtersFlag : Bool
  columnToggleFlag : Bool
deriving DecidableEq

/-- TS `DataSchema` (the fields used by the pipeline and by the store). -/
structure DataSchema where
  id : String
  name : String
  columns : List ColumnDefinition
  defaultSort : Option SortState
deriving DecidableEq

/-- A raw parsed row: a string-keyed JS object, embedded as an association
list (keys are unique — later duplicate headers overwrite earlier ones at
construction, before this embedding is reached). -/
def RawRow := List (String × CellValue)

/-- `row[key]` on a raw row: `undefined` (here `null`) when absent. -/
def rawGet (r : RawRow) (k : String) : CellValue :=
  match List.lookup k r with
  | some v => v
  | none => .null

/-- `formatLabel` (excel-parser.ts lines 420-430): underscores to spaces,
a space before each ASCII capital, strip leading whitespace, then
title-case each `' '`-separated word and trim. -/
def formatLabel (header : String) : String :=
  let step1 := header.toList.map (fun c => if c == '_' then ' ' else c)
  let step2 := step1.flatMap (fun c => if 'A' ≤ c ∧ c ≤ 'Z' then [' ', c] else [c])
  let step3 := step2.dropWhile isJsWs
  let words := step3.splitOn ' '
  let capped := words.map (fun w =>
    match w with
    | [] => []
    | c :: cs => jsToUpperChar c :: cs.map jsToLowerChar)
  String.mk (trimChars (List.intercalate [' '] capped))

/-- The fixed badge color palette (`generateBadgeColors`). -/
def badgePalette : List (String × String) :=
  [("#dbeafe", "#1e40af"), ("#dcfce7", "#166534"), ("#fef3c7", "#92400e"),
   ("#fce7f3", "#9d174d"), ("#e0e7ff", "#3730a3"), ("#ccfbf1", "#115e59"),
   ("#fed7aa", "#9a3412"), ("#f3e8ff", "#6b21a8"), ("#fecaca", "#991b1b"),
   ("#e5e7eb", "#374151")]

/-- `generateBadgeColors`: each distinct non-null value (by string form,
first-occurrence order) gets the next palette color, cycling. -/
def generateBadgeColors (values : List CellValue) : List (String × String × String) :=
  let uniq := ((values.filter (fun v => !(v == .null))).map jsToString).dedup
  uniq.enum.map (fun p =>
    let col := badgePalette.getD (p.1 % badgePalette.length) ("", "")
    (p.2, col.1, col.2))

/-- Options of `generateSchemaFromData` / `processData`. -/
structure SchemaOptions where
  schemaId : Option String
  schemaName : Option String
  sourceFileName : Option String

/-- Stand-in for `generateId()` (a fresh nondeterministic id; ids are
opaque and no claim depends on them). -/
def generatedId : String := "generated-id"

/-- Per-type defaults applied by `generateSchemaFromData`'s `switch`. -/
def applyTypeDefaults (c : ColumnDefinition) (values : List CellValue) : ColumnDefinition :=
  match c.format.type with
  | .currency =>
    let f := { c.format with currency := some "BRL", locale := some "pt-BR" }
    { c with format := f, align := some .right }
  | .number => { c with align := some .right, format := { c.format with decimals := some 2 } }
  | .percentage => { c with align := some .right, format := { c.format with decimals := some 2 } }
  | .progress => { c with align := some .right, format := { c.format with decimals := some 2 } }
  | .date =>
    let f := { c.format with dateFormat := some "dd/MM/yyyy" }
    { c with format := f, align := some .center }
  | .datetime =>
    let f := { c.format with dateFormat := some "dd/MM/yyyy HH:mm" }
    { c with format := f, align := some .center }
  | .badge =>
    let f := { c.format with badgeColors := some (generateBadgeColors values) }
    { c with format := f, align := some .center }
  | .boolean => { c with align := some .center }
  | _ => c

/-- `generateSchemaFromData` (excel-parser.ts lines 299-367). -/
def generateSchemaFromData (headers : List String) (data : List RawRow)
    (options : SchemaOptions) : DataSchema :=
  let columns := headers.map (fun header =>
    let values := data.map (fun row => rawGet row header)
    let inferredType := inferColumnType values
    let column : ColumnDefinition :=
      ⟨header, formatLabel header, plainFormat inferredType, true, true,
       decide (inferredType = .string ∨ inferredType = .email), none⟩
    applyTypeDefaults column values)
  ⟨(options.schemaId).getD generatedId,
   (options.schemaName).getD "Dados Importados",
   columns, none⟩

-- ============================================
-- Value normalization (excel-parser.ts, normalizeValue)
-- ============================================

/-- Accumulating decimal-digit parser: consumes the longest digit prefix,
returning `(value, digitCount, rest)`. -/
def parseDigitsAcc (acc cnt : Nat) : List Char → Nat × Nat × List Char
  | c :: cs =>
    if c.isDigit then parseDigitsAcc (10 * acc + (c.toNat - '0'.toNat)) (cnt + 1) cs
    else (acc, cnt, c :: cs)
  | [] => (acc, cnt, [])

/-- `m * 10 ^ e` as a rational: the value of a parsed numeric literal with
integer mantissa `m` and decimal exponent `e`. -/
def sciVal (m e : Int) : ℚ := (m : ℚ) * 10 ^ e

/-- Longest-prefix JS numeric literal parser (sign, digits, optional
fractional digits, optional exponent), returning the value and the
unconsumed rest; `none` when no digit is consumed.  `Infinity` and hex
literals are not modelled (no claim depends on them). -/
def parseNumCore (l : List Char) : Option (ℚ × List Char) :=
  let (sgn, l2) : Int × List Char :=
    match l with
    | '-' :: r => (-1, r)
    | '+' :: r => (1, r)
    | r => (1, r)
  let (ip, ic, l3) := parseDigitsAcc 0 0 l2
  let (fp, fc, l4) : Nat × Nat × List Char :=
    match l3 with
    | '.' :: r => parseDigitsAcc 0 0 r
    | r => (0, 0, r)
  if ic == 0 && fc == 0 then none
  else
    let mantissa : Int := sgn * (ip * 10 ^ fc + fp)
    let (ex, rest) : Int × List Char :=
      match l4 with
      | e :: r =>
        if e == 'e' || e == 'E' then
          let (esgn, r2) : Int × List Char :=
            match r with
            | '-' :: rr => (-1, rr)
            | '+' :: rr => (1, rr)
            | rr => (1, rr)
          let (ev, ecnt, r3) := parseDigitsAcc 0 0 r2
          if ecnt == 0 then (0, e :: r) else (esgn * ev, r3)
        else (0, e :: r)
      | [] => (0, [])
    some (sciVal mantissa (ex - fc), rest)

/-- JS `parseFloat`: skip leading whitespace, parse the longest numeric
prefix, `NaN` (here `none`) when there is none. -/
def jsParseFloat (l : List Char) : Option ℚ :=
  (parseNumCore (l.dropWhile isJsWs)).map Prod.fst

/-- The strip `/[R$%,\s]/g` of `normalizeValue`'s numeric branch.  Note the
character class contains the comma, so every comma is removed here. -/
def numericStrip (l : List Char) : List Char :=
  l.filter (fun c => !(c == 'R' || c == '$' || c == '%' || c == ',' || isJsWs c))

/-- `String.prototype.replace(',', '.')`: replaces the first occurrence
only. -/
def replaceFirstChar (a b : Char) : List Char → List Char
  | [] => []
  | c :: cs => if c == a then b :: cs else c :: replaceFirstChar a b cs

/-- Truthy token set of `normalizeValue`'s boolean branch. -/
def truthyTokens : List String := ["true", "sim", "yes", "1", "s"]

/-- Stand-in for the host's `new Date(string)` parser (host-defined beyond
ISO formats): accepts `YYYY-MM-DD` and nothing else; no claim below
depends on this branch. -/
def jsNewDate (s : String) : Option Int :=
  let l := s.toList
  let d1 := l.takeWhile Char.isDigit
  match l.drop d1.length with
  | '-' :: rest1 =>
    let d2 := rest1.takeWhile Char.isDigit
    match rest1.drop d2.length with
    | '-' :: rest2 =>
      let d3 := rest2.takeWhile Char.isDigit
      if d1.length == 4 && d2.length == 2 && d3.length == 2 && (rest2.drop d3.length).isEmpty then
        some ((parseDigitsAcc 0 0 d1).1 * 10000 + (parseDigitsAcc 0 0 d2).1 * 100 +
              (parseDigitsAcc 0 0 d3).1)
      else none
    | _ => none
  | _ => none

/-- `normalizeValue` (excel-parser.ts lines 447-473). -/
def normalizeValue (value : CellValue) (t : ColumnType) : CellValue :=
  match value with
  | .null => .null
  | _ =>
    match t with
    | .number | .currency | .percentage | .progress =>
      let s := replaceFirstChar ',' '.' (numericStrip (jsToString value).toList)
      match jsParseFloat s with
      | some q => .num q
      | none => .null
    | .boolean =>
      match value with
      | .bool b => .bool b
      | _ => .bool (truthyTokens.contains (lowerJsStr (jsToString value)))
    | .date | .datetime =>
      match value with
      | .date d => .date d
      | _ =>
        match jsNewDate (jsToString value) with
        | some d => .date d
        | none => .null
    | _ => .str (jsToString value)

-- ============================================
-- Data processing (excel-parser.ts, processData)
-- ============================================

/-- TS `ParseResult`. -/
structure ParseResult where
  headers : List String
  data : List RawRow
  rawData : List (List CellValue)
  errors : List String

/-- One normalized record (TS `DataRow`): the generated `_id` is
nondeterministic in the source (`generateId()`) and is modelled by the row
index; `cells` holds one entry per schema column. -/
structure DataRow where
  id : String
  rowIndex : Nat
  cells : List (String × CellValue)
deriving DecidableEq

/-- `row[key]` on a processed row (`undefined`, here `null`, when absent). -/
def rowGet (r : DataRow) (k : String) : CellValue :=
  match List.lookup k r.cells with
  | some v => v
  | none => .null

/-- Metadata of a `ProcessedData` (`processedAt` — a wall-clock instant —
is not modelled). -/
structure DataMetadata where
  totalRows : Nat
  sourceFileName : Option String
  warnings : Option (List String)

/-- TS `ProcessedData`. -/
structure ProcessedData where
  schema : DataSchema
  rows : List DataRow
  metadata : DataMetadata

/-- `processData` (excel-parser.ts lines 373-412). -/
def processData (parseResult : ParseResult) (schema : Option DataSchema)
    (options : SchemaOptions) : ProcessedData :=
  let finalSchema :=
    match schema with
    | some s => s
    | none => generateSchemaFromData parseResult.headers parseResult.data options
  let rows := parseResult.data.enum.map (fun p =>
    ⟨"row-" ++ toString p.1, p.1,
     finalSchema.columns.map (fun column =>
       (column.key, normalizeValue (rawGet p.2 column.key) column.format.type))⟩)
  ⟨finalSchema, rows,
   ⟨rows.length, options.sourceFileName,
    if parseResult.errors.length > 0 then some parseResult.errors else none⟩⟩

-- ============================================
-- Query engine (excel-worker.ts store part, getFilteredData)
-- ============================================

/-- Filter operators of TS `FilterState` (`'in'` is `inOp`).  `between`
appears in the type union but has no case in the engine's `switch`. -/
inductive FilterOp where
  | eq | neq | gt | gte | lt | lte | contains | startsWith | endsWith | between | inOp
deriving DecidableEq

/-- A filter's comparison value: `CellValue | CellValue[]`. -/
inductive FilterVal where
  | scalar (v : CellValue)
  | arr (l : List CellValue)
deriving DecidableEq

/-- TS `FilterState`. -/
structure FilterState where
  column : String
  operator : FilterOp
  value : FilterVal
deriving DecidableEq

/-- TS `PaginationState`. -/
structure PaginationState where
  page : Nat
  pageSize : Nat
  totalPages : Nat
  totalItems : Nat
deriving DecidableEq

/-- TS `TableState`. -/
structure TableState where
  sort : Option SortState
  filters : List FilterState
  search : String
  pagination : PaginationState
  visibleColumns : List String
  groupBy : Option String

/-- `String.prototype.includes` on character lists (`needle` may be
empty, in which case it is always found). -/
def containsChars (hay needle : List Char) : Bool :=
  hay.tails.any (fun t => needle.isPrefixOf t)

/-- JS strict equality (`===`) between two cell values: no coercion, no
case folding; `null === null` holds; two `Date` objects compare by
reference, and a filter's comparison value is never the same object as a
cell, so dates never compare equal here. -/
def cellStrictEq (a b : CellValue) : Bool :=
  match a, b with
  | .str x, .str y => x == y
  | .num x, .num y => x == y
  | .bool x, .bool y => x == y
  | .null, .null => true
  | _, _ => false

/-- `value === filterValue` where the filter value may be an array (an
array is never strictly equal to a scalar cell). -/
def jsStrictEqF (v : CellValue) : FilterVal → Bool
  | .scalar w => cellStrictEq v w
  | .arr _ => false

/-- JS `Number(string)`: trims, empty string is `0`, otherwise the whole
string must be a numeric literal (`none` = `NaN`; `Infinity` and hex
literals are not modelled). -/
def jsNumberOfChars (l : List Char) : Option ℚ :=
  let t := trimChars l
  if t.isEmpty then some 0
  else
    match parseNumCore t with
    | some (q, []) => some q
    | _ => none

/-- JS `Number(value)` on a cell value (`none` = `NaN`). -/
def jsToNumber : CellValue → Option ℚ
  | .null => some 0
  | .num q => some q
  | .bool b => some (if b then 1 else 0)
  | .date d => some d
  | .str s => jsNumberOfChars s.toList

/-- `String(filterValue)`: an array stringifies as its elements joined by
commas, `null` elements as empty text. -/
def fvToString : FilterVal → String
  | .scalar c => jsToString c
  | .arr l =>
    String.intercalate "," (l.map (fun c =>
      match c with
      | .null => ""
      | v => jsToString v))

/-- `Number(filterValue)`: arrays coerce through their string form. -/
def fvToNumber : FilterVal → Option ℚ
  | .scalar c => jsToNumber c
  | .arr l => jsNumberOfChars (fvToString (.arr l)).toList

/-- One arm of the engine's filter `switch` (excel-worker.ts lines
517-547), for the row value `v`. -/
def matchesFilter (f : FilterState) (r : DataRow) : Bool :=
  let v := rowGet r f.column
  match f.operator with
  | .eq => jsStrictEqF v f.value
  | .neq => !jsStrictEqF v f.value
  | .gt =>
    match jsToNumber v, fvToNumber f.value with
    | some a, some b => decide (b < a)
    | _, _ => false
  | .gte =>
    match jsToNumber v, fvToNumber f.value with
    | some a, some b => decide (b ≤ a)
    | _, _ => false
  | .lt =>
    match jsToNumber v, fvToNumber f.value with
    | some a, some b => decide (a < b)
    | _, _ => false
  | .lte =>
    match jsToNumber v, fvToNumber f.value with
    | some a, some b => decide (a ≤ b)
    | _, _ => false
  | .contains =>
    containsChars ((jsToString v).toList.map jsToLowerChar)
      ((fvToString f.value).toList.map jsToLowerChar)
  | .startsWith =>
    ((fvToString f.value).toList.map jsToLowerChar).isPrefixOf
      ((jsToString v).toList.map jsToLowerChar)
  | .endsWith =>
    ((fvToString f.value).toList.map jsToLowerChar).isSuffixOf
      ((jsToString v).toList.map jsToLowerChar)
  | .inOp =>
    match f.value with
    | .arr l => l.any (fun w => cellStrictEq v w)
    | .scalar _ => false
  | .between => true

/-- The search stage: keep rows where some `searchable` column has a
non-null value whose lowercased string form contains the lowercased
search text. -/
def searchStep (schema : DataSchema) (search : String) (rows : List DataRow) : List DataRow :=
  if search == "" then rows
  else
    let searchLower := (search.toList.map jsToLowerChar)
    let searchableKeys := (schema.columns.filter (·.searchable)).map (·.key)
    rows.filter (fun r =>
      searchableKeys.any (fun k =>
        match rowGet r k with
        | .null => false
        | v => containsChars ((jsToString v).toList.map jsToLowerChar) searchLower))

/-- The filter stage: every active filter applied as a logical AND
(one `Array.prototype.filter` pass per filter, in order). -/
def filterStep (filters : List FilterState) (rows : List DataRow) : List DataRow :=
  filters.foldl (fun acc f => acc.filter (matchesFilter f)) rows

/-- Code-point lexicographic three-way comparison: the model of
`String.prototype.localeCompare` (locale/host-defined in JS). -/
def compareCharsLex : List Char → List Char → Int
  | [], [] => 0
  | [], _ :: _ => -1
  | _ :: _, [] => 1
  | a :: as, b :: bs => if a < b then -1 else if b < a then 1 else compareCharsLex as bs

/-- The sort comparator of the engine (excel-worker.ts lines 551-567):
null values first (returning `1`/`-1` before the direction is applied),
numeric pairs by value, everything else by string comparison, negated for
descending order. -/
def cmpRows (s : SortState) (a b : DataRow) : Int :=
  let av := rowGet a s.column
  let bv := rowGet b s.column
  if av == .null then 1
  else if bv == .null then -1
  else
    let c : Int :=
      match av, bv with
      | .num x, .num y => if x < y then -1 else if y < x then 1 else 0
      | _, _ => compareCharsLex (jsToString av).toList (jsToString bv).toList
    match s.direction with
    | .desc => -c
    | .asc => c

/-- Merge of a stable merge sort (fuel-based; the fuel is always at least
the combined length, see `merge`).  An element of the left list goes first
when the comparator says it is less than or equal. -/
def mergeAux (le : α → α → Bool) : Nat → List α → List α → List α
  | 0, l1, l2 => l1 ++ l2
  | _ + 1, [], l2 => l2
  | _ + 1, a :: as, [] => a :: as
  | fuel + 1, a :: as, b :: bs =>
    if le a b then a :: mergeAux le fuel as (b :: bs)
    else b :: mergeAux le fuel (a :: as) bs

def merge (le : α → α → Bool) (l1 l2 : List α) : List α :=
  mergeAux le (l1.length + l2.length) l1 l2

/-- Stable merge sort (fuel-based; the fuel is always at least the list
length, see `mergeSortJS`): the model of `Array.prototype.sort` with a
comparator (a stable merge-based sort, as required by ECMAScript). -/
def mergeSortAux (le : α → α → Bool) : Nat → List α → List α
  | 0, l => l
  | fuel + 1, l =>
    if l.length ≤ 1 then l
    else
      merge le (mergeSortAux le fuel (l.take (l.length / 2)))
        (mergeSortAux le fuel (l.drop (l.length / 2)))

def mergeSortJS (le : α → α → Bool) (l : List α) : List α :=
  mergeSortAux le l.length l

/-- The sort stage. -/
def sortStep (sort : Option SortState) (rows : List DataRow) : List DataRow :=
  match sort with
  | none => rows
  | some s => mergeSortJS (fun a b => decide (cmpRows s a b ≤ 0)) rows

/-- The filtered and sorted row sequence before pagination — the list the
engine computes `totalFiltered` from and then slices. -/
def filteredSortedRows (d : ProcessedData) (st : TableState) : List DataRow :=
  sortStep st.sort (filterStep st.filters (searchStep d.schema st.search d.rows))

/-- Result of the query engine. -/
structure QueryResult where
  rows : List DataRow
  totalFiltered : Nat
deriving DecidableEq

/-- `getFilteredData` (excel-worker.ts lines 549-577): search, filters,
sort, then the slice `[(page-1)*pageSize, page*pageSize)`, returned with
the pre-pagination count. -/
def getFilteredData (data : Option ProcessedData) (st : TableState) : QueryResult :=
  match data with
  | none => ⟨[], 0⟩
  | some d =>
    let rows := filteredSortedRows d st
    ⟨(rows.drop ((st.pagination.page - 1) * st.pagination.pageSize)).take st.pagination.pageSize,
     rows.length⟩

-- ============================================
-- Store actions (excel-worker.ts store part) and Pagination.tsx
-- ============================================

/-- `Math.ceil(a / b)` for naturals (`b ≥ 1`; the `b = 0` case gives
`Infinity` in JS and is unreachable here). -/
def ceilNat (a b : Nat) : Nat := (a + b - 1) / b

/-- The slice of application state the page-related actions touch. -/
structure AppState where
  data : Option ProcessedData
  tableState : TableState

/-- Store action `setPage`: stores the requested page as-is. -/
def setPage (page : Nat) (s : AppState) : AppState :=
  { s with tableState :=
    { s.tableState with pagination := { s.tableState.pagination with page := page } } }

/-- Store action `setSearch`: sets the search text and resets the page
to 1. -/
def setSearch (search : String) (s : AppState) : AppState :=
  let p := { s.tableState.pagination with page := 1 }
  { s with tableState := { s.tableState with search := search, pagination := p } }

/-- Store action `addFilter`: replaces any filter on the same column and
resets the page to 1. -/
def addFilter (f : FilterState) (s : AppState) : AppState :=
  let fs := (s.tableState.filters.filter (fun g => !(g.column == f.column))) ++ [f]
  let p := { s.tableState.pagination with page := 1 }
  { s with tableState := { s.tableState with filters := fs, pagination := p } }

/-- Store action `setPageSize`: sets the page size, resets the page to 1
and recomputes `totalPages` from the unfiltered row count. -/
def setPageSize (pageSize : Nat) (s : AppState) : AppState :=
  let totalItems := match s.data with | some d => d.rows.length | none => 0
  let p0 := s.tableState.pagination
  let p := { p0 with pageSize := pageSize, page := 1, totalPages := ceilNat totalItems pageSize }
  { s with tableState := { s.tableState with pagination := p } }

/-- `handlePageChange` of the `Pagination` component (Pagination.tsx lines
21-25): computes `totalPages = Math.ceil(totalFiltered / pageSize)` and
invokes `setPage` only when `1 ≤ newPage ≤ totalPages`. -/
def handlePageChange (s : AppState) (newPage : Nat) : AppState :=
  let totalFiltered := (getFilteredData s.data s.tableState).totalFiltered
  let totalPages := ceilNat totalFiltered s.tableState.pagination.pageSize
  if 1 ≤ newPage ∧ newPage ≤ totalPages then setPage newPage s else s

-- ============================================
-- Derived notions and concrete fixtures used in the statements
-- ============================================

/-- The engine's pre-pagination row sequence (empty for absent data):
what `getFilteredData` measures with `totalFiltered` and then slices. -/
def fullRows (data : Option ProcessedData) (st : TableState) : List DataRow :=
  match data with
  | some d => filteredSortedRows d st
  | none => []

/-- A table state with only the current page replaced. -/
def withPage (st : TableState) (p : Nat) : TableState :=
  { st with pagination := { st.pagination with page := p } }

/-- In `l`, every row whose value in column `col` is null comes strictly
after every row with a non-null value there: once a null-valued row has
occurred, all later rows are null-valued. -/
def nullsAfterNonNull (col : String) (l : List DataRow) : Prop :=
  l.Pairwise (fun a b => rowGet a col = .null → rowGet b col = .null)

/-- The pagination invariant claimed by the specification: the 1-indexed
page lies within `[1, ceil(totalFiltered / pageSize)]` (lower bound 1
when nothing matches). -/
def pageInRange (s : AppState) : Prop :=
  1 ≤ s.tableState.pagination.page ∧
  s.tableState.pagination.page ≤
    max 1 (ceilNat (getFilteredData s.data s.tableState).totalFiltered
      s.tableState.pagination.pageSize)

/-- Scenario A of the specification: headers `[name, price]` with rows
`{name:"A", price:"R$ 10,50"}` and `{name:"B", price:"R$ 20,00"}`. -/
def scenarioAParse : ParseResult :=
  ⟨["name", "price"],
   [[("name", .str "A"), ("price", .str "R$ 10,50")],
    [("name", .str "B"), ("price", .str "R$ 20,00")]],
   [], []⟩

/-- A one-column string schema column used by the concrete fixtures. -/
def fixtureColumn : ColumnDefinition :=
  ⟨"a", "A", plainFormat .string, true, true, true, none⟩

/-- A one-row dataset used by the pagination fixtures. -/
def fixtureData1 : ProcessedData :=
  ⟨⟨"s", "n", [fixtureColumn], none⟩,
   [⟨"row-0", 0, [("a", .str "x")]⟩],
   ⟨1, none, none⟩⟩

/-- A two-row dataset (one null cell) used by the sort fixture. -/
def fixtureData2 : ProcessedData :=
  ⟨⟨"s", "n", [fixtureColumn], none⟩,
   [⟨"row-0", 0, [("a", .null)]⟩, ⟨"row-1", 1, [("a", .str "x")]⟩],
   ⟨2, none, none⟩⟩

/-- An application state over `fixtureData1` at page 1, page size 25. -/
def fixtureState1 : AppState :=
  ⟨some fixtureData1, ⟨none, [], "", ⟨1, 25, 1, 1⟩, ["a"], none⟩⟩

/-- A table state sorting `fixtureData2` ascending by column `a`. -/
def fixtureSortState : TableState :=
  ⟨some ⟨"a", .asc⟩, [], "", ⟨1, 25, 1, 2⟩, ["a"], none⟩

/-- A table state over two rows with page size 1. -/
def fixturePageState : TableState :=
  ⟨none, [], "", ⟨1, 1, 2, 2⟩, ["a"], none⟩

-- ============================================
-- Helper lemmas
-- ============================================

theorem pairwise_of_length_le_one {α : Type} {R : α → α → Prop} {l : List α}
    (h : l.length ≤ 1) : l.Pairwise R := by
  cases l with
  | nil => exact List.Pairwise.nil
  | cons a t =>
    cases t with
    | nil => simp
    | cons b t2 => simp [List.length_cons] at h

theorem mem_mergeAux {α : Type} (le : α → α → Bool) :
    ∀ (fuel : Nat) (l1 l2 : List α) (x : α),
      x ∈ mergeAux le fuel l1 l2 → x ∈ l1 ∨ x ∈ l2 := by
  intro fuel
  induction fuel with
  | zero =>
    intro l1 l2 x hx
    simpa [mergeAux] using hx
  | succ n ih =>
    intro l1 l2 x hx
    cases l1 with
    | nil => right; simpa [mergeAux] using hx
    | cons a as =>
      cases l2 with
      | nil => left; simpa [mergeAux] using hx
      | cons b bs =>
        cases hle : le a b with
        | true =>
          simp only [mergeAux, hle, if_true, List.mem_cons] at hx
          rcases hx with rfl | hx
          · left; exact List.mem_cons_self _ _
          · rcases ih as (b :: bs) x hx with h | h
            · left; exact List.mem_cons_of_mem _ h
            · right; exact h
        | false =>
          simp only [mergeAux, hle, Bool.false_eq_true, if_false, List.mem_cons] at hx
          rcases hx with rfl | hx
          · right; exact List.mem_cons_self _ _
          · rcases ih (a :: as) bs x hx with h | h
            · left; exact h
            · right; exact List.mem_cons_of_mem _ h

theorem mergeAux_pairwise {α : Type} {R : α → α → Prop} (le : α → α → Bool)
    (hT : ∀ a b c, R a b → R b c → R a c)
    (h1 : ∀ a b, le a b = true → R a b)
    (h2 : ∀ a b, le a b = false → R b a) :
    ∀ (fuel : Nat) (l1 l2 : List α), l1.length + l2.length ≤ fuel →
      l1.Pairwise R → l2.Pairwise R → (mergeAux le fuel l1 l2).Pairwise R := by
  intro fuel
  induction fuel with
  | zero =>
    intro l1 l2 hlen p1 p2
    cases l1 with
    | nil =>
      cases l2 with
      | nil => simp [mergeAux]
      | cons b bs => simp at hlen
    | cons a as => simp at hlen
  | succ n ih =>
    intro l1 l2 hlen p1 p2
    cases l1 with
    | nil => simpa [mergeAux] using p2
    | cons a as =>
      cases l2 with
      | nil => simpa [mergeAux] using p1
      | cons b bs =>
        rcases List.pairwise_cons.1 p1 with ⟨ha, pas⟩
        rcases List.pairwise_cons.1 p2 with ⟨hb, pbs⟩
        cases hle : le a b with
        | true =>
          simp only [mergeAux, hle, if_true]
          refine List.pairwise_cons.2 ⟨?_, ?_⟩
          · intro x hx
            rcases mem_mergeAux le n as (b :: bs) x hx with h | h
            · exact ha x h
            · rcases List.mem_cons.1 h with rfl | h
              · exact h1 a x hle
              · exact hT a b x (h1 a b hle) (hb x h)
          · exact ih as (b :: bs) (by simp [List.length_cons] at hlen ⊢; omega) pas p2
        | false =>
          simp only [mergeAux, hle, Bool.false_eq_true, if_false]
          refine List.pairwise_cons.2 ⟨?_, ?_⟩
          · intro x hx
            rcases mem_mergeAux le n (a :: as) bs x hx with h | h
            · rcases List.mem_cons.1 h with rfl | h
              · exact h2 _ _ hle
              · exact hT b a x (h2 a b hle) (ha x h)
            · exact hb x h
          · exact ih (a :: as) bs (by simp [List.length_cons] at hlen ⊢; omega) p1 pbs

theorem mergeSortAux_pairwise {α : Type} {R : α → α → Prop} (le : α → α → Bool)
    (hT : ∀ a b c, R a b → R b c → R a c)
    (h1 : ∀ a b, le a b = true → R a b)
    (h2 : ∀ a b, le a b = false → R b a) :
    ∀ (fuel : Nat) (l : List α), l.length ≤ fuel →
      (mergeSortAux le fuel l).Pairwise R := by
  intro fuel
  induction fuel with
  | zero =>
    intro l hl
    have : (mergeSortAux le 0 l) = l := rfl
    rw [this]
    exact pairwise_of_length_le_one (by omega)
  | succ n ih =>
    intro l hl
    by_cases hs : l.length ≤ 1
    · simpa [mergeSortAux, hs] using pairwise_of_length_le_one (R := R) hs
    · simp only [mergeSortAux, hs, if_false]
      unfold merge
      apply mergeAux_pairwise le hT h1 h2 _ _ _ (le_refl _)
      · apply ih
        simp only [List.length_take]
        omega
      · apply ih
        simp only [List.length_drop]
        omega

theorem mergeSortJS_pairwise {α : Type} {R : α → α → Prop} (le : α → α → Bool)
    (hT : ∀ a b c, R a b → R b c → R a c)
    (h1 : ∀ a b, le a b = true → R a b)
    (h2 : ∀ a b, le a b = false → R b a) (l : List α) :
    (mergeSortJS le l).Pairwise R :=
  mergeSortAux_pairwise le hT h1 h2 l.length l (le_refl _)

theorem cmpRows_null_left {s : SortState} {a b : DataRow}
    (h : rowGet a s.column = .null) : cmpRows s a b = 1 := by
  simp [cmpRows, h]

theorem cmpRows_nonnull_null {s : SortState} {a b : DataRow}
    (ha : rowGet a s.column ≠ .null) (hb : rowGet b s.column = .null) :
    cmpRows s a b = -1 := by
  simp [cmpRows, ha, hb]

theorem le_ceilNat_mul (a b : Nat) (hb : 0 < b) : a ≤ ceilNat a b * b := by
  have h := Nat.div_add_mod (a + b - 1) b
  have h2 : (a + b - 1) % b < b := Nat.mod_lt _ hb
  have h3 : ceilNat a b * b = b * ((a + b - 1) / b) := by
    rw [ceilNat, Nat.mul_comm]
  omega

theorem flatten_slices {α : Type} (n : Nat) (_hn : 0 < n) :
    ∀ (k : Nat) (l : List α), l.length ≤ k * n →
      ((List.range k).map (fun i => (l.drop (i * n)).take n)).flatten = l := by
  intro k
  induction k with
  | zero =>
    intro l hl
    simp only [Nat.zero_mul, Nat.le_zero] at hl
    rw [List.length_eq_zero.1 hl]
    simp
  | succ k ih =>
    intro l hl
    rw [List.range_succ_eq_map, List.map_cons, List.map_map, List.flatten_cons]
    have h1 : (l.drop (0 * n)).take n = l.take n := by simp
    have h2 : (List.range k).map ((fun i => (l.drop (i * n)).take n) ∘ Nat.succ) =
        (List.range k).map (fun i => ((l.drop n).drop (i * n)).take n) := by
      apply List.map_congr_left
      intro i _
      simp only [Function.comp_apply, List.drop_drop]
      have : Nat.succ i * n = n + i * n := by
        rw [Nat.succ_mul]; omega
      rw [this]
    rw [h1, h2, ih (l.drop n) ?_, List.take_append_drop]
    have hs : Nat.succ k * n = k * n + n := Nat.succ_mul k n
    have hs2 : (k + 1) * n = k * n + n := by ring
    simp only [List.length_drop]
    omega

theorem find?_first_sat {α : Type} [DecidableEq α] (p : α → Bool) :
    ∀ (l : List α) (a : α), a ∈ l → p a = true →
      (∀ b ∈ l.takeWhile (fun x => decide (x ≠ a)), p b = false) →
      l.find? p = some a := by
  intro l
  induction l with
  | nil => intro a ha _ _; simp at ha
  | cons h t ih =>
    intro a ha hpa hpre
    by_cases hha : h = a
    · subst hha; exact List.find?_cons_of_pos _ hpa
    · have hmem : h ∈ (h :: t).takeWhile (fun x => decide (x ≠ a)) := by
        rw [List.takeWhile_cons_of_pos (by simp [hha])]
        exact List.mem_cons_self _ _
      have hh : p h = false := hpre h hmem
      rw [List.find?_cons_of_neg _ (by simp [hh])]
      refine ih a ?_ hpa ?_
      · rcases List.mem_cons.1 ha with rfl | hmem2
        · exact absurd rfl hha
        · exact hmem2
      · intro b hb
        apply hpre
        rw [List.takeWhile_cons_of_pos (by simp [hha])]
        exact List.mem_cons_of_mem _ hb

theorem mem_priorityOrder (t : ColumnType) : t ∈ priorityOrder := by
  cases t <;> simp [priorityOrder]

theorem totalFiltered_setPage (s : AppState) (n : Nat) :
    (getFilteredData (setPage n s).data (setPage n s).tableState).totalFiltered =
    (getFilteredData s.data s.tableState).totalFiltered := by
  rcases s with ⟨data, ts⟩
  cases data with
  | none => rfl
  | some d => rfl

theorem pageSize_setPage (s : AppState) (n : Nat) :
    (setPage n s).tableState.pagination.pageSize = s.tableState.pagination.pageSize := rfl

theorem typeCounts_all_zero_of_number {sample : List CellValue}
    (hall : ∀ v ∈ sample, bucketOf v = .number) {t : ColumnType}
    (ht1 : t ≠ .number) (ht2 : t ≠ .progress) : typeCounts sample t = 0 := by
  apply List.countP_eq_zero.2
  intro v hv
  have hb := hall v hv
  intro hcon
  simp only [tallyHits, hb, Bool.or_eq_true, Bool.and_eq_true, beq_iff_eq] at hcon
  rcases hcon with h | h
  · exact ht1 h.symm
  · have : t = ColumnType.progress := by tauto
    exact ht2 this

-- ============================================
-- Claims
-- ============================================

/-- C1: Scenario A fails on the code.  `CURRENCY_REGEX`'s character class
`[R$€£¥]` matches one single character and therefore cannot match the
two-character symbol "R$", so both price cells fall through every guard to
the string bucket and the column infers as `string` (not `currency`);
normalization under `string` then leaves both values as the original
strings (not the numbers 10.5 and 20.0). -/
theorem claim_C1_scenarioA :
    (processData scenarioAParse none ⟨none, none, none⟩).schema.columns.map
        (fun c => (c.key, c.format.type)) =
      [("name", ColumnType.string), ("price", ColumnType.string)] ∧
    (processData scenarioAParse none ⟨none, none, none⟩).rows.map
        (fun r => rowGet r "price") =
      [CellValue.str "R$ 10,50", CellValue.str "R$ 20,00"] := by
  decide

/-- C2: the numeric normalization strips every comma via the global
`/[R$%,\s]/g` replace before the subsequent (dead) `.replace(',', '.')`
can convert a decimal comma to a dot, so "10,50" normalizes to the number
1050, not 10.5 — and the same happens under the `currency` type. -/
theorem claim_C2_comma_normalization :
    normalizeValue (.str "10,50") .number = .num 1050 ∧
    normalizeValue (.str "R$ 10,50") .currency = .num 1050 ∧
    (1050 : ℚ) ≠ 21 / 2 := by
  refine ⟨?_, ?_, by norm_num⟩
  · have h : normalizeValue (.str "10,50") .number = .num (sciVal 1050 0) := rfl
    rw [h]; norm_num [sciVal]
  · have h : normalizeValue (.str "R$ 10,50") .currency = .num (sciVal 1050 0) := rfl
    rw [h]; norm_num [sciVal]

/-- C9 (counterexample): a null raw cell under a boolean column stays
`null` — the `value == null` guard runs before the boolean branch — so
the boolean result is not "never null". -/
theorem claim_C9_counterexample :
    normalizeValue CellValue.null ColumnType.boolean = CellValue.null ∧
    ∀ b : Bool, normalizeValue CellValue.null ColumnType.boolean ≠ CellValue.bool b := by
  decide

/-- C9 (amended): for every non-null raw cell under a boolean column the
result is a boolean — true exactly for the native boolean true or a
truthy-token match, false for everything else — never null. -/
theorem claim_C9_boolean_nonnull (v : CellValue) (hv : v ≠ CellValue.null) :
    ∃ b : Bool, normalizeValue v .boolean = .bool b ∧
      (b = true ↔ (v = .bool true ∨
        truthyTokens.contains (lowerJsStr (jsToString v)) = true)) := by
  cases v with
  | null => exact absurd rfl hv
  | bool b =>
    refine ⟨b, rfl, ?_⟩
    cases b with
    | true => simp
    | false => decide
  | str s => exact ⟨_, rfl, by simp⟩
  | num q => exact ⟨_, rfl, by simp⟩
  | date d => exact ⟨_, rfl, by simp⟩

theorem claim_C9_boolean_nonnull_witness :
    CellValue.str "sim" ≠ CellValue.null ∧
    ∃ b : Bool, normalizeValue (.str "sim") .boolean = .bool b ∧
      (b = true ↔ (CellValue.str "sim" = .bool true ∨
        truthyTokens.contains (lowerJsStr (jsToString (CellValue.str "sim"))) = true)) :=
  ⟨by decide, claim_C9_boolean_nonnull (.str "sim") (by decide)⟩

/-- C10: the `eq` operator is JS strict equality (and `neq` its negation):
no numeric coercion — a numeric cell never equals the string form of that
number — and case-sensitive string comparison, unlike `contains` /
`startsWith` / `endsWith`, which lowercase both sides (illustrated on a
concrete row with cell "ABC": `eq "abc"` rejects, `contains "abc"`
accepts). -/
theorem claim_C10_strict_eq :
    (∀ (r : DataRow) (col : String) (fv : FilterVal),
      matchesFilter ⟨col, .eq, fv⟩ r = jsStrictEqF (rowGet r col) fv ∧
      matchesFilter ⟨col, .neq, fv⟩ r = !jsStrictEqF (rowGet r col) fv) ∧
    (∀ (q : ℚ) (s : String), cellStrictEq (.num q) (.str s) = false) ∧
    (∀ (a b : String), cellStrictEq (.str a) (.str b) = true ↔ a = b) ∧
    (matchesFilter ⟨"a", .eq, .scalar (.str "abc")⟩ ⟨"row-0", 0, [("a", .str "ABC")]⟩ = false ∧
     matchesFilter ⟨"a", .contains, .scalar (.str "abc")⟩ ⟨"row-0", 0, [("a", .str "ABC")]⟩ = true) := by
  refine ⟨fun r col fv => ⟨rfl, rfl⟩, fun q s => rfl, fun a b => ?_, by decide⟩
  simp [cellStrictEq]

/-- C6 (counterexample): the store's `setPage` stores the requested page
without clamping: on a one-row dataset (one page at page size 25),
`setPage 5` leaves the state at page 5, outside
`[1, ceil(totalFiltered / pageSize)] = [1, 1]`. -/
theorem claim_C6_counterexample :
    (setPage 5 fixtureState1).tableState.pagination.page = 5 ∧
    ceilNat (getFilteredData (setPage 5 fixtureState1).data
        (setPage 5 fixtureState1).tableState).totalFiltered
      (setPage 5 fixtureState1).tableState.pagination.pageSize = 1 ∧
    ¬((setPage 5 fixtureState1).tableState.pagination.page ≤ 1) := by
  decide

/-- C6 (amended): `setPage` itself stores the requested page unclamped;
the range `[1, ceil(totalFiltered / pageSize)]` is enforced only at the
UI — the Pagination component's `handlePageChange` calls `setPage` just
for in-range targets (so it preserves the range invariant), and the
search / filter / page-size actions reset the page to 1. -/
theorem claim_C6_page_clamping :
    (∀ (s : AppState) (p : Nat), (setPage p s).tableState.pagination.page = p) ∧
    (∀ (s : AppState) (n : Nat), pageInRange s → pageInRange (handlePageChange s n)) ∧
    (∀ (s : AppState) (q : String), (setSearch q s).tableState.pagination.page = 1) ∧
    (∀ (s : AppState) (f : FilterState), (addFilter f s).tableState.pagination.page = 1) ∧
    (∀ (s : AppState) (n : Nat), (setPageSize n s).tableState.pagination.page = 1) := by
  refine ⟨fun s p => rfl, ?_, fun s q => rfl, fun s f => rfl, fun s n => rfl⟩
  intro s n hin
  unfold handlePageChange
  by_cases hcond : 1 ≤ n ∧
      n ≤ ceilNat (getFilteredData s.data s.tableState).totalFiltered
        s.tableState.pagination.pageSize
  · rw [if_pos hcond]
    constructor
    · show 1 ≤ (setPage n s).tableState.pagination.page
      simpa [setPage] using hcond.1
    · show (setPage n s).tableState.pagination.page ≤ _
      have hpage : (setPage n s).tableState.pagination.page = n := rfl
      rw [hpage, totalFiltered_setPage, pageSize_setPage]
      exact le_trans hcond.2 (le_max_right 1 _)
  · rw [if_neg hcond]
    exact hin

theorem claim_C6_page_clamping_witness :
    pageInRange fixtureState1 ∧ pageInRange (handlePageChange fixtureState1 1) := by
  have h : pageInRange fixtureState1 := by
    constructor
    · decide
    · decide
  exact ⟨h, claim_C6_page_clamping.2.1 fixtureState1 1 h⟩

/-- C3: the inference threshold law.  For a nonempty sample, when the
counting bucket of type `T` holds at least 70% of the sampled values
(`reachesThreshold`, the exact integer form of
`typeCounts[T]/total >= 0.7`) and no type strictly preceding `T` in the
fixed priority order reaches the threshold, the inferred column type is
`T`. -/
theorem claim_C3_threshold_law (values : List CellValue) (T : ColumnType)
    (h0 : values.filter isSampled ≠ [])
    (hT : reachesThreshold (values.filter isSampled) T = true)
    (hprev : ∀ T' ∈ priorityOrder.takeWhile (fun t => decide (t ≠ T)),
      reachesThreshold (values.filter isSampled) T' = false) :
    inferColumnType values = T := by
  have hfind : priorityOrder.find? (reachesThreshold (values.filter isSampled)) = some T :=
    find?_first_sat _ priorityOrder T (mem_priorityOrder T) hT hprev
  cases hE : (values.filter isSampled).isEmpty with
  | true => exact absurd (List.isEmpty_iff.1 hE) h0
  | false => simp [inferColumnType, hE, hfind]

theorem claim_C3_threshold_law_witness :
    ([CellValue.str "a@b.co"].filter isSampled ≠ [] ∧
     reachesThreshold ([CellValue.str "a@b.co"].filter isSampled) .email = true ∧
     (∀ T' ∈ priorityOrder.takeWhile (fun t => decide (t ≠ ColumnType.email)),
       reachesThreshold ([CellValue.str "a@b.co"].filter isSampled) T' = false)) ∧
    inferColumnType [CellValue.str "a@b.co"] = .email :=
  ⟨⟨by decide, by decide, by decide⟩,
   claim_C3_threshold_law [CellValue.str "a@b.co"] .email (by decide) (by decide) (by decide)⟩

/-- C7: a native number in `[0, 100]` that reaches the number branch of
the tally (is not captured by an earlier guard) is counted toward both
the `progress` and the `number` buckets; consequently a nonempty column
sample consisting entirely of such values infers as `progress`, not
`number`, because `progress` precedes `number` in the priority order. -/
theorem claim_C7_progress_double_count :
    (∀ (sample : List CellValue) (q : ℚ), 0 ≤ q → q ≤ 100 →
      bucketOf (.num q) = .number →
      typeCounts (sample ++ [.num q]) .progress = typeCounts sample .progress + 1 ∧
      typeCounts (sample ++ [.num q]) .number = typeCounts sample .number + 1) ∧
    (∀ values : List CellValue, values.filter isSampled ≠ [] →
      (∀ v ∈ values.filter isSampled,
        ∃ q : ℚ, v = .num q ∧ 0 ≤ q ∧ q ≤ 100 ∧ bucketOf v = .number) →
      inferColumnType values = .progress) := by
  constructor
  · intro sample q hq0 hq100 hb
    have hp : tallyHits .progress (.num q) = true := by
      simp [tallyHits, hb, inProgressRange, hq0, hq100]
    have hn : tallyHits .number (.num q) = true := by simp [tallyHits, hb]
    constructor <;>
      simp [typeCounts, List.countP_append, List.countP_cons, hp, hn]
  · intro values h0 hall
    have hlen : 0 < (values.filter isSampled).length := List.length_pos.2 h0
    have hballnum : ∀ v ∈ values.filter isSampled, bucketOf v = .number := by
      intro v hv
      obtain ⟨q, _, _, _, hb⟩ := hall v hv
      exact hb
    have hprog : ∀ v ∈ values.filter isSampled, tallyHits .progress v = true := by
      intro v hv
      obtain ⟨q, rfl, h1, h2, hb⟩ := hall v hv
      simp [tallyHits, hb, inProgressRange, h1, h2]
    have hcountp : typeCounts (values.filter isSampled) .progress =
        (values.filter isSampled).length :=
      List.countP_eq_length.2 hprog
    have hreach : reachesThreshold (values.filter isSampled) .progress = true := by
      simp only [reachesThreshold, hcountp, decide_eq_true_iff]
      omega
    have hfalse : ∀ t : ColumnType, t ≠ .number → t ≠ .progress →
        reachesThreshold (values.filter isSampled) t = false := by
      intro t h1 h2
      have hz := typeCounts_all_zero_of_number hballnum h1 h2
      simp only [reachesThreshold, hz, decide_eq_false_iff_not]
      omega
    have hfind : priorityOrder.find? (reachesThreshold (values.filter isSampled)) =
        some .progress := by
      apply find?_first_sat _ _ _ (mem_priorityOrder _) hreach
      intro b hbmem
      have hpre : priorityOrder.takeWhile (fun t => decide (t ≠ ColumnType.progress)) =
          [.email, .url, .image, .phone, .currency, .percentage, .date, .datetime, .boolean] :=
        by decide
      rw [hpre] at hbmem
      fin_cases hbmem <;> exact hfalse _ (by decide) (by decide)
    cases hE : (values.filter isSampled).isEmpty with
    | true => exact absurd (List.isEmpty_iff.1 hE) h0
    | false => simp [inferColumnType, hE, hfind]

theorem claim_C7_progress_double_count_witness :
    (bucketOf (CellValue.num 50) = .number ∧
     typeCounts ([CellValue.num 3] ++ [CellValue.num 50]) .progress =
       typeCounts [CellValue.num 3] .progress + 1 ∧
     typeCounts ([CellValue.num 3] ++ [CellValue.num 50]) .number =
       typeCounts [CellValue.num 3] .number + 1) ∧
    inferColumnType [CellValue.num 50, CellValue.num 3] = .progress := by
  have h1 := (claim_C7_progress_double_count.1 [CellValue.num 3] 50
    (by decide) (by decide) (by decide))
  have h2 := claim_C7_progress_double_count.2 [CellValue.num 50, CellValue.num 3]
    (by decide) ?_
  · exact ⟨⟨by decide, h1.1, h1.2⟩, h2⟩
  · intro v hv
    have hfe : List.filter isSampled [CellValue.num 50, CellValue.num 3] =
        [CellValue.num 50, CellValue.num 3] := by decide
    rw [hfe] at hv
    simp only [List.mem_cons, List.not_mem_nil, or_false] at hv
    rcases hv with rfl | rfl
    · exact ⟨50, rfl, by decide, by decide, by decide⟩
    · exact ⟨3, rfl, by decide, by decide, by decide⟩

/-- C8: the badge fallback law.  For a nonempty sample where no type
reaches the 0.7 threshold, the inferred type is `badge` when the count of
distinct case-insensitive string forms is at most 10, and `string` when
it exceeds 10. -/
theorem claim_C8_badge_fallback (values : List CellValue)
    (h0 : values.filter isSampled ≠ [])
    (hall : ∀ t ∈ priorityOrder, reachesThreshold (values.filter isSampled) t = false) :
    (distinctCount (values.filter isSampled) ≤ 10 → inferColumnType values = .badge) ∧
    (10 < distinctCount (values.filter isSampled) → inferColumnType values = .string) := by
  have hfind : priorityOrder.find? (reachesThreshold (values.filter isSampled)) = none :=
    List.find?_eq_none.2 (fun t ht => by simp [hall t ht])
  have hpos : 0 < distinctCount (values.filter isSampled) := by
    unfold distinctCount
    apply List.length_pos.2
    rw [Ne, List.dedup_eq_nil]
    intro hc
    exact h0 (List.map_eq_nil_iff.1 hc)
  cases hE : (values.filter isSampled).isEmpty with
  | true => exact absurd (List.isEmpty_iff.1 hE) h0
  | false =>
    constructor
    · intro hle
      simp [inferColumnType, hE, hfind, hle, hpos]
    · intro hgt
      have hneg : ¬(distinctCount (values.filter isSampled) ≤ 10 ∧
          0 < distinctCount (values.filter isSampled)) := by
        intro hc
        omega
      simp [inferColumnType, hE, hfind, hneg]

theorem claim_C8_badge_fallback_witness :
    ([CellValue.str "x", CellValue.str "y", CellValue.str "a@b.co"].filter isSampled ≠ [] ∧
     (∀ t ∈ priorityOrder, reachesThreshold
       ([CellValue.str "x", CellValue.str "y", CellValue.str "a@b.co"].filter isSampled) t = false) ∧
     distinctCount ([CellValue.str "x", CellValue.str "y",
       CellValue.str "a@b.co"].filter isSampled) ≤ 10) ∧
    inferColumnType [CellValue.str "x", CellValue.str "y", CellValue.str "a@b.co"] = .badge :=
  ⟨⟨by decide, by decide, by decide⟩,
   (claim_C8_badge_fallback [CellValue.str "x", CellValue.str "y", CellValue.str "a@b.co"]
     (by decide) (by decide)).1 (by decide)⟩

/-- C4: the null-sort law.  Whenever a sort is active, in the row
sequence the query engine returns (and in the whole pre-pagination
filtered+sorted sequence) every row whose sort-column value is null comes
strictly after every row with a non-null value, for either direction: the
comparator returns `1` / `-1` for null operands before the direction sign
is applied. -/
theorem claim_C4_null_sort (data : Option ProcessedData) (st : TableState)
    (s : SortState) (h : st.sort = some s) :
    nullsAfterNonNull s.column (getFilteredData data st).rows ∧
    (∀ d : ProcessedData, data = some d →
      nullsAfterNonNull s.column (filteredSortedRows d st)) := by
  have hfull : ∀ d : ProcessedData, nullsAfterNonNull s.column (filteredSortedRows d st) := by
    intro d
    unfold nullsAfterNonNull filteredSortedRows sortStep
    rw [h]
    apply mergeSortJS_pairwise
    · intro a b c hab hbc hna
      exact hbc (hab hna)
    · intro a b hle ha
      have h1 := cmpRows_null_left (s := s) (b := b) ha
      have hle' : cmpRows s a b ≤ 0 := of_decide_eq_true hle
      rw [h1] at hle'
      exact absurd hle' (by norm_num)
    · intro a b hle hb
      by_contra hna
      have h2 := cmpRows_nonnull_null (s := s) hna hb
      have hle' : ¬(cmpRows s a b ≤ 0) := of_decide_eq_false hle
      rw [h2] at hle'
      exact hle' (by norm_num)
  constructor
  · cases data with
    | none => simp [getFilteredData, nullsAfterNonNull]
    | some d =>
      have hp := hfull d
      unfold nullsAfterNonNull at hp ⊢
      simp only [getFilteredData]
      exact List.Pairwise.sublist
        ((List.take_sublist _ _).trans (List.drop_sublist _ _)) hp
  · intro d hd
    subst hd
    exact hfull d

theorem claim_C4_null_sort_witness :
    fixtureSortState.sort = some ⟨"a", SortDir.asc⟩ ∧
    nullsAfterNonNull "a" (getFilteredData (some fixtureData2) fixtureSortState).rows :=
  ⟨rfl, (claim_C4_null_sort (some fixtureData2) fixtureSortState ⟨"a", .asc⟩ rfl).1⟩

/-- C5: pagination completeness.  For a page size of at least 1,
concatenating the row slices of pages 1 through
`ceil(totalFiltered / pageSize)` — with `totalFiltered` the count the
engine returns — reproduces exactly the full filtered and sorted row
sequence (hence no duplicates and no omissions), and `totalFiltered` is
the pre-pagination length of that sequence. -/
theorem claim_C5_pagination_complete (data : Option ProcessedData) (st : TableState)
    (h : 1 ≤ st.pagination.pageSize) :
    ((List.range (ceilNat (getFilteredData data st).totalFiltered
        st.pagination.pageSize)).map
      (fun i => (getFilteredData data (withPage st (i + 1))).rows)).flatten =
      fullRows data st ∧
    (getFilteredData data st).totalFiltered = (fullRows data st).length := by
  have htf : (getFilteredData data st).totalFiltered = (fullRows data st).length := by
    cases data with
    | none => rfl
    | some d => rfl
  refine ⟨?_, htf⟩
  rw [htf]
  have hrows : ∀ i : Nat, (getFilteredData data (withPage st (i + 1))).rows =
      ((fullRows data st).drop (i * st.pagination.pageSize)).take
        st.pagination.pageSize := by
    intro i
    cases data with
    | none => simp [getFilteredData, fullRows]
    | some d =>
      have hfs : filteredSortedRows d (withPage st (i + 1)) = filteredSortedRows d st := rfl
      have hpage : (withPage st (i + 1)).pagination.page = i + 1 := rfl
      have hsize : (withPage st (i + 1)).pagination.pageSize = st.pagination.pageSize := rfl
      simp only [getFilteredData, fullRows, hfs, hpage, hsize, Nat.add_sub_cancel]
  rw [List.map_congr_left (fun i _ => hrows i)]
  exact flatten_slices st.pagination.pageSize h _ (fullRows data st)
    (le_ceilNat_mul _ _ h)

theorem claim_C5_pagination_complete_witness :
    1 ≤ fixturePageState.pagination.pageSize ∧
    ((List.range (ceilNat (getFilteredData (some fixtureData2) fixturePageState).totalFiltered
        fixturePageState.pagination.pageSize)).map
      (fun i => (getFilteredData (some fixtureData2)
        (withPage fixturePageState (i + 1))).rows)).flatten =
      fullRows (some fixtureData2) fixturePageState :=
  ⟨by decide,
   (claim_C5_pagination_complete (some fixtureData2) fixturePageState (by decide)).1⟩
